import Mathlib

/-!
# Verification of the mailslurper SMTP core

A shallow embedding of the mailslurper SMTP worker, command parser,
mail-header parser, MIME message-part builder and database receiver,
with theorems settling the specification claims about them.

Strings from the Go source are modelled as Lean `String`s; the Go
`strings` package functions used by the source (`Split`, `Join`,
`TrimSpace`, `ToLower`, `Contains`, `HasPrefix`, `Index`, `Replace`)
are reimplemented below on `List Char` by structural recursion so that
every definition evaluates inside the kernel.  The Go functions operate
on UTF-8 strings; the inputs exercised here are ASCII which both
representations treat identically.
-/

namespace Mailslurper

/-- Go `unicode.IsSpace` restricted to the ASCII whitespace characters
that appear in SMTP traffic. -/
def charIsSpace (c : Char) : Bool :=
  c = ' ' || c = '\t' || c = '\n' || c = '\r' || c = '\x0b' || c = '\x0c'

/-- ASCII lower-casing of one character (Go `strings.ToLower` on ASCII). -/
def lowerChar (c : Char) : Char :=
  if 'A' ≤ c ∧ c ≤ 'Z' then Char.ofNat (c.toNat + 32) else c

/-- ASCII lower-casing of a character list. -/
def toLowerL (s : List Char) : List Char :=
  s.map lowerChar

/-- Drop leading whitespace. -/
def trimLeftL : List Char → List Char
  | [] => []
  | c :: rest => if charIsSpace c then trimLeftL rest else c :: rest

/-- Go `strings.TrimSpace` on a character list. -/
def trimL (s : List Char) : List Char :=
  trimLeftL ((trimLeftL s.reverse).reverse)

/-- Does `p` occur at the start of `s`?  (Go `strings.HasPrefix`.) -/
def startsWithL : List Char → List Char → Bool
  | [], _ => true
  | _ :: _, [] => false
  | p :: ps, c :: cs => p = c && startsWithL ps cs

/-- Break `s` at the first occurrence of `sep`, returning the part before
the occurrence and the part after it, or `none` when `sep` does not
occur.  For `sep = []` the first occurrence is at the start. -/
def breakOnFirst (sep : List Char) : List Char → Option (List Char × List Char)
  | [] => if sep = [] then some ([], []) else none
  | c :: cs =>
    if startsWithL sep (c :: cs) then some ([], List.drop sep.length (c :: cs))
    else
      match breakOnFirst sep cs with
      | none => none
      | some (pre, post) => some (c :: pre, post)

/-- Fuelled worker for `splitL`; the fuel bounds the number of
occurrences of the (non-empty) separator. -/
def splitAux (sep : List Char) : Nat → List Char → List (List Char)
  | 0, s => [s]
  | fuel + 1, s =>
    match breakOnFirst sep s with
    | none => [s]
    | some (pre, post) => pre :: splitAux sep fuel post

/-- Go `strings.Split`: split around every occurrence of `sep`; an empty
separator splits into single characters. -/
def splitL (sep s : List Char) : List (List Char) :=
  if sep = [] then s.map (fun c => [c]) else splitAux sep s.length s

/-- Go `strings.Join` on character lists. -/
def joinL (sep : List Char) : List (List Char) → List Char
  | [] => []
  | [x] => x
  | x :: y :: rest => x ++ sep ++ joinL sep (y :: rest)

/-- Go `strings.Contains`. -/
def containsL (s sub : List Char) : Bool :=
  (breakOnFirst sub s).isSome

/-- Go `strings.Index`: byte index of the first occurrence, `-1` when
absent (character index; identical on ASCII input). -/
def indexL (s sub : List Char) : Int :=
  match breakOnFirst sub s with
  | none => -1
  | some (pre, _) => (pre.length : Int)

/-- Go `strings.Replace(s, old, new, -1)`: replace every occurrence. -/
def replaceAllL (s old new : List Char) : List Char :=
  joinL new (splitL old s)

/-- The whitespace-separated fields of a line (Go `strings.Fields`),
used by the spec-modelled command classifier. -/
def fieldsL (s : List Char) : List (List Char) :=
  (splitL [' '] s).filter (fun w => w ≠ [])

/- String-level wrappers.  The model's data stays in `String` so the
definitions read like the Go source; each wrapper delegates to the
`List Char` implementation above. -/

/-- Go `strings.Split` on `String`. -/
def goSplit (s sep : String) : List String :=
  (splitL sep.data s.data).map (fun l => String.mk l)

/-- Go `strings.Join` on `String`. -/
def goJoin (sep : String) (xs : List String) : String :=
  String.mk (joinL sep.data (xs.map String.data))

/-- Go `strings.TrimSpace` on `String`. -/
def goTrim (s : String) : String :=
  String.mk (trimL s.data)

/-- Go `strings.ToLower` on `String` (ASCII). -/
def goToLower (s : String) : String :=
  String.mk (toLowerL s.data)

/-- Go `strings.Contains` on `String`. -/
def goContains (s sub : String) : Bool :=
  containsL s.data sub.data

/-- Go `strings.HasPrefix` on `String`. -/
def goStartsWith (s p : String) : Bool :=
  startsWithL p.data s.data

/-- Go `strings.Index` on `String`. -/
def goIndex (s sub : String) : Int :=
  indexL s.data sub.data

/-- Go `strings.Replace(s, old, new, -1)` on `String`. -/
def goReplaceAll (s old new : String) : String :=
  String.mk (replaceAllL s.data old.data new.data)

/-!
## Error taxonomy

From the repository's error files (`InvalidCommandFormatError`,
`InvalidEmailError`, `InvalidHeaderError`, and the `errors.New` /
`errors.Wrap` strings used by the worker).
-/

/-- The error kinds returned by the SMTP core.  `generic` carries the
message of an `errors.New` / wrapped error. -/
inductive ErrM where
  | invalidCommand (expected : String)
  | invalidCommandFormat (expected : String)
  | invalidEmail (addr : String)
  | invalidHeader (header : String)
  | generic (msg : String)
deriving DecidableEq, Repr

/-!
## Command parser and validators
-/

/-- `GetCommandValue` from the source: split the input on the delimiter;
with fewer than two segments return `InvalidCommandFormat(command)`,
otherwise return the trimmed concatenation (`strings.Join(split[1:], "")`)
of the segments after the first. -/
def GetCommandValue (streamInput command delimiter : String) : Except ErrM String :=
  let split := goSplit streamInput delimiter
  if split.length < 2 then .error (.invalidCommandFormat command)
  else .ok (goTrim (goJoin "" (split.drop 1)))

/-- Modelled from the spec: `IsValidCommand(line, expected)` — the line
begins (case-insensitively, after trim) with `expected`; otherwise it
returns `InvalidCommand(expected)`.  The implementation is declared in
the repository's validation package, which is not under `src/`. -/
def IsValidCommand (streamInput command : String) : Except ErrM Unit :=
  if goStartsWith (goToLower (goTrim streamInput)) (goToLower command) then .ok ()
  else .error (.invalidCommand command)

/-!
## Structural lemmas about the split primitives
-/

theorem breakOnFirst_nil (sep : List Char) (h : sep ≠ []) : breakOnFirst sep [] = none := by
  simp [breakOnFirst, h]

theorem breakOnFirst_post_lt (sep : List Char) (h : sep ≠ []) :
    ∀ s pre post, breakOnFirst sep s = some (pre, post) → post.length < s.length := by
  intro s
  induction s with
  | nil =>
    intro pre post hb
    rw [breakOnFirst_nil sep h] at hb
    cases hb
  | cons c cs ih =>
    intro pre post hb
    have hsep : 1 ≤ sep.length := by
      cases sep with
      | nil => exact absurd rfl h
      | cons a as => simp
    unfold breakOnFirst at hb
    by_cases hs : startsWithL sep (c :: cs)
    · simp [hs] at hb
      obtain ⟨_, hpost⟩ := hb
      subst hpost
      simp [List.length_drop]
      omega
    · simp [hs] at hb
      cases hcs : breakOnFirst sep cs with
      | none => simp [hcs] at hb
      | some pp =>
        obtain ⟨pre', post'⟩ := pp
        simp [hcs] at hb
        obtain ⟨_, hpost⟩ := hb
        subst hpost
        have := ih pre' post' hcs
        simp
        omega

theorem breakOnFirst_none_imp_sep_ne (sep s : List Char)
    (hb : breakOnFirst sep s = none) : sep ≠ [] := by
  intro hsep
  subst hsep
  cases s with
  | nil => simp [breakOnFirst] at hb
  | cons c cs => simp [breakOnFirst, startsWithL] at hb

theorem splitAux_congr (sep : List Char) (h : sep ≠ []) :
    ∀ f1 f2 s, s.length ≤ f1 → s.length ≤ f2 → splitAux sep f1 s = splitAux sep f2 s := by
  intro f1
  induction f1 with
  | zero =>
    intro f2 s h1 _
    have : s = [] := List.length_eq_zero.mp (Nat.le_zero.mp h1)
    subst this
    cases f2 with
    | zero => rfl
    | succ k => simp [splitAux, breakOnFirst_nil sep h]
  | succ f ih =>
    intro f2 s h1 h2
    cases hb : breakOnFirst sep s with
    | none =>
      cases f2 with
      | zero => simp [splitAux, hb]
      | succ k => simp [splitAux, hb]
    | some pp =>
      obtain ⟨pre, post⟩ := pp
      have hlt := breakOnFirst_post_lt sep h s pre post hb
      have hne : s ≠ [] := by
        intro hnil
        subst hnil
        rw [breakOnFirst_nil sep h] at hb
        cases hb
      cases f2 with
      | zero =>
        exact absurd (Nat.le_zero.mp h2) (by simpa using hne)
      | succ k =>
        simp [splitAux, hb]
        exact ih k post (by omega) (by omega)

theorem splitL_of_none (sep s : List Char) (hb : breakOnFirst sep s = none) :
    splitL sep s = [s] := by
  have h : sep ≠ [] := breakOnFirst_none_imp_sep_ne sep s hb
  unfold splitL
  simp [h]
  cases hf : s.length with
  | zero => simp [splitAux]
  | succ n => simp [splitAux, hb]

theorem splitL_of_some (sep : List Char) (h : sep ≠ []) (s pre post : List Char)
    (hb : breakOnFirst sep s = some (pre, post)) :
    splitL sep s = pre :: splitL sep post := by
  have hlt := breakOnFirst_post_lt sep h s pre post hb
  have hne : s ≠ [] := by
    intro hnil
    subst hnil
    rw [breakOnFirst_nil sep h] at hb
    cases hb
  unfold splitL
  simp [h]
  cases hf : s.length with
  | zero => exact absurd (List.length_eq_zero.mp hf) hne
  | succ n =>
    simp [splitAux, hb]
    exact splitAux_congr sep h n post.length post (by omega) (by omega)

theorem splitL_ne_nil (sep s : List Char) (h : sep ≠ []) : splitL sep s ≠ [] := by
  cases hb : breakOnFirst sep s with
  | none => simp [splitL_of_none sep s hb]
  | some pp =>
    obtain ⟨pre, post⟩ := pp
    simp [splitL_of_some sep h s pre post hb]

/-!
## Claim C4 — GetCommandValue
-/

/-- C4 counterexample: `GetCommandValue` does not return
`InvalidCommandFormat` when the right side is empty after trimming
(`"MAIL FROM:"` yields `ok ""`), and it does not split on only the
first occurrence of the delimiter (`"MAIL FROM: a:b"` yields `"ab"`,
not `"a:b"`: the later delimiter is deleted by `Join(split[1:], "")`). -/
theorem claim_C4_counterexample :
    GetCommandValue "MAIL FROM:" "MAIL FROM" ":" = .ok "" ∧
    GetCommandValue "MAIL FROM: a:b" "MAIL FROM" ":" = .ok "ab" := by
  constructor
  · rfl
  · rfl

/-- C4 (amended): for every input line, expected command, and non-empty
delimiter, `GetCommandValue` returns `InvalidCommandFormat(expected)`
exactly when the delimiter does not occur in the line; otherwise it
returns the part of the line after the first occurrence of the
delimiter, with every remaining occurrence of the delimiter deleted,
trimmed of surrounding whitespace (which may leave the empty string). -/
theorem claim_C4 (line cmd delim : String) (hd : delim.data ≠ []) :
    (containsL line.data delim.data = false →
      GetCommandValue line cmd delim = .error (.invalidCommandFormat cmd)) ∧
    (∀ pre post, breakOnFirst delim.data line.data = some (pre, post) →
      GetCommandValue line cmd delim = .ok (goTrim (goReplaceAll (String.mk post) delim ""))) := by
  constructor
  · intro hc
    have hb : breakOnFirst delim.data line.data = none := by
      unfold containsL at hc
      exact Option.not_isSome_iff_eq_none.mp (by simp [hc])
    unfold GetCommandValue goSplit
    rw [splitL_of_none delim.data line.data hb]
    rfl
  · intro pre post hb
    unfold GetCommandValue goSplit
    rw [splitL_of_some delim.data hd line.data pre post hb]
    have hlen : ((pre :: splitL delim.data post).map (fun l => String.mk l)).length =
        (splitL delim.data post).length + 1 := by simp
    have hne : splitL delim.data post ≠ [] := splitL_ne_nil delim.data post hd
    have hlen2 : 1 ≤ (splitL delim.data post).length := by
      cases hsp : splitL delim.data post with
      | nil => exact absurd hsp hne
      | cons a as => simp
    simp only [hlen]
    rw [if_neg (by omega)]
    unfold goJoin goTrim goReplaceAll replaceAllL
    simp only [List.map_cons, List.drop_succ_cons, List.drop_zero, List.map_map]
    have hid : (String.data ∘ fun l => String.mk l) = id := by
      funext l
      rfl
    rw [hid, List.map_id]

/-- C4 witness: the amended theorem evaluated on `"RCPT TO: bob@test.com"`
with delimiter `":"`, giving the trimmed address. -/
theorem claim_C4_witness :
    GetCommandValue "RCPT TO: bob@test.com" "RCPT TO" ":" = .ok "bob@test.com" := by
  have h := (claim_C4 "RCPT TO: bob@test.com" "RCPT TO" ":" (by decide)).2
    (String.data "RCPT TO") (String.data " bob@test.com") (by decide)
  rw [h]
  rfl

/-!
## Trim and join/split round-trip lemmas
-/

/-- The head of a trimmed-from-the-left list is not whitespace. -/
def headNotSpace : List Char → Prop
  | [] => True
  | c :: _ => charIsSpace c = false

theorem headNotSpace_trimLeftL (s : List Char) : headNotSpace (trimLeftL s) := by
  induction s with
  | nil => trivial
  | cons c rest ih =>
    unfold trimLeftL
    by_cases h : charIsSpace c
    · simp [h]
      exact ih
    · simp [h]
      unfold headNotSpace
      simpa using h

theorem trimLeftL_of_headNotSpace (s : List Char) (h : headNotSpace s) : trimLeftL s = s := by
  cases s with
  | nil => rfl
  | cons c rest =>
    unfold trimLeftL
    unfold headNotSpace at h
    simp [h]

theorem trimLeftL_suffix (s : List Char) : trimLeftL s <:+ s := by
  induction s with
  | nil => exact List.suffix_rfl
  | cons c rest ih =>
    unfold trimLeftL
    by_cases h : charIsSpace c
    · simp [h]
      exact ih.trans (List.suffix_cons c rest)
    · simp [h]

theorem trimL_idem (s : List Char) : trimL (trimL s) = trimL s := by
  unfold trimL
  set a := trimLeftL s.reverse with ha
  set t := trimLeftL a.reverse with ht
  have hta : headNotSpace a := headNotSpace_trimLeftL s.reverse
  have htt : headNotSpace t := headNotSpace_trimLeftL a.reverse
  have hsfx : t <:+ a.reverse := trimLeftL_suffix a.reverse
  have hrev : trimLeftL t.reverse = t.reverse := by
    apply trimLeftL_of_headNotSpace
    cases htr : t.reverse with
    | nil => trivial
    | cons c cs =>
      have hpre : t.reverse <+: a := by
        have h2 : t.reverse <+: a.reverse.reverse := List.reverse_prefix.mpr hsfx
        simpa using h2
      obtain ⟨r, hr⟩ := hpre
      rw [htr] at hr
      cases hcut : a with
      | nil => rw [hcut] at hr; cases hr
      | cons d ds =>
        rw [hcut] at hr
        have hcd : c = d := by
          have := hr
          simp at this
          exact this.1
        unfold headNotSpace at hta
        rw [hcut] at hta
        unfold headNotSpace
        rw [hcd]
        exact hta
  rw [hrev, List.reverse_reverse]
  exact trimLeftL_of_headNotSpace t htt

/-- If `p` starts `s`, then `p` followed by the rest of `s` is `s`. -/
theorem startsWithL_append (p : List Char) :
    ∀ s, startsWithL p s = true → p ++ List.drop p.length s = s := by
  induction p with
  | nil => intro s _; simp
  | cons a as ih =>
    intro s hs
    cases s with
    | nil => simp [startsWithL] at hs
    | cons c cs =>
      unfold startsWithL at hs
      simp at hs
      obtain ⟨hac, hrest⟩ := hs
      subst hac
      simp
      exact ih cs hrest

/-- Decomposition of a successful `breakOnFirst`. -/
theorem breakOnFirst_eq_append (sep : List Char) :
    ∀ s pre post, breakOnFirst sep s = some (pre, post) → pre ++ sep ++ post = s := by
  intro s
  induction s with
  | nil =>
    intro pre post hb
    unfold breakOnFirst at hb
    by_cases h : sep = []
    · simp [h] at hb
      obtain ⟨h1, h2⟩ := hb
      subst h1; subst h2
      simp [h]
    · simp [h] at hb
  | cons c cs ih =>
    intro pre post hb
    unfold breakOnFirst at hb
    by_cases hs : startsWithL sep (c :: cs)
    · simp [hs] at hb
      obtain ⟨h1, h2⟩ := hb
      subst h1
      subst h2
      simpa using startsWithL_append sep (c :: cs) hs
    · simp [hs] at hb
      cases hcs : breakOnFirst sep cs with
      | none => simp [hcs] at hb
      | some pp =>
        obtain ⟨pre', post'⟩ := pp
        simp [hcs] at hb
        obtain ⟨h1, h2⟩ := hb
        subst h1
        subst h2
        have := ih pre' post' hcs
        simp
        simpa [List.append_assoc] using this

/-- Splitting and re-joining with the same separator is the identity. -/
theorem joinL_splitL (sep : List Char) (h : sep ≠ []) :
    ∀ fuel s, s.length ≤ fuel → joinL sep (splitL sep s) = s := by
  intro fuel
  induction fuel with
  | zero =>
    intro s hs
    have : s = [] := List.length_eq_zero.mp (Nat.le_zero.mp hs)
    subst this
    rw [splitL_of_none sep [] (breakOnFirst_nil sep h)]
    rfl
  | succ f ih =>
    intro s hs
    cases hb : breakOnFirst sep s with
    | none => rw [splitL_of_none sep s hb]; rfl
    | some pp =>
      obtain ⟨pre, post⟩ := pp
      have hlt := breakOnFirst_post_lt sep h s pre post hb
      rw [splitL_of_some sep h s pre post hb]
      have hne := splitL_ne_nil sep post h
      cases hsp : splitL sep post with
      | nil => exact absurd hsp hne
      | cons x xs =>
        unfold joinL
        rw [← hsp]
        rw [ih post (by omega)]
        exact breakOnFirst_eq_append sep s pre post hb

/-!
## Claim C10 — GetFilenameFromContentDisposition
-/

/-- `SMTPMessagePart.GetFilenameFromContentDisposition` from the source,
as a function of the part's `Content-Disposition` header value.  It
splits the header on `";"`, joins everything after the first segment
back with `";"` and trims it; when the lower-cased header contains
`"attachment"` and that remainder is non-empty after a further trim,
the filename is everything after the first `"="` with all `"` removed. -/
def GetFilenameFromContentDisposition (contentDisposition : String) : String :=
  let contentDispositionSplit := goSplit contentDisposition ";"
  let contentDispositionRightSide := goTrim (goJoin ";" (contentDispositionSplit.drop 1))
  if goContains (goToLower contentDisposition) "attachment" = true ∧
      goTrim contentDispositionRightSide ≠ "" then
    let filenameSplit := goSplit contentDispositionRightSide "="
    goReplaceAll (goJoin "=" (filenameSplit.drop 1)) "\"" ""
  else ""

/-- C10 counterexample: the attachment check lower-cases the header first,
so `"ATTACHMENT; filename=\"file.pdf\""`, which does not contain the
literal substring `"attachment"`, still yields the filename. -/
theorem claim_C10_counterexample :
    GetFilenameFromContentDisposition "ATTACHMENT; filename=\"file.pdf\"" = "file.pdf" ∧
    goContains "ATTACHMENT; filename=\"file.pdf\"" "attachment" = false := by
  constructor
  · rfl
  · rfl

/-- C10 (amended): the attachment check is case-insensitive — the header
is lower-cased before the substring test.  When the lower-cased header
does not contain `"attachment"` the result is the empty string even if a
filename parameter is present; when it does and the trimmed parameter
list after the first `";"` is non-empty, the result is everything after
the first `"="` of that parameter list with all double quotes removed
(the empty string when the parameter list has no `"="`). -/
theorem claim_C10 (cd : String) :
    (goContains (goToLower cd) "attachment" = false →
      GetFilenameFromContentDisposition cd = "") ∧
    (∀ rs, rs = goTrim (goJoin ";" ((goSplit cd ";").drop 1)) →
      goContains (goToLower cd) "attachment" = true → rs ≠ "" →
      ((∀ pre post, breakOnFirst (String.data "=") rs.data = some (pre, post) →
        GetFilenameFromContentDisposition cd = goReplaceAll (String.mk post) "\"" "") ∧
       (breakOnFirst (String.data "=") rs.data = none →
        GetFilenameFromContentDisposition cd = ""))) := by
  constructor
  · intro hc
    unfold GetFilenameFromContentDisposition
    rw [if_neg]
    intro hcon
    rw [hc] at hcon
    exact absurd hcon.1 (by simp)
  · intro rs hrs hc hne
    subst hrs
    have hTT : goTrim (goTrim (goJoin ";" ((goSplit cd ";").drop 1))) =
        goTrim (goJoin ";" ((goSplit cd ";").drop 1)) := by
      show String.mk (trimL (trimL (goJoin ";" ((goSplit cd ";").drop 1)).data)) = _
      rw [trimL_idem]
      rfl
    have hcond : goContains (goToLower cd) "attachment" = true ∧
        goTrim (goTrim (goJoin ";" ((goSplit cd ";").drop 1))) ≠ "" := by
      refine ⟨hc, ?_⟩
      rw [hTT]
      exact hne
    have hid : (String.data ∘ fun l => String.mk l) = id := by
      funext l
      rfl
    constructor
    · intro pre post hb
      have houter : goSplit (goTrim (goJoin ";" ((goSplit cd ";").drop 1))) "=" =
          (pre :: splitL (String.data "=") post).map (fun l => String.mk l) := by
        show (splitL (String.data "=")
            (goTrim (goJoin ";" ((goSplit cd ";").drop 1))).data).map (fun l => String.mk l) = _
        rw [splitL_of_some (String.data "=") (by decide) _ pre post hb]
      unfold GetFilenameFromContentDisposition
      rw [if_pos hcond]
      rw [houter]
      simp only [List.map_cons, List.drop_succ_cons, List.drop_zero]
      have hjoin2 : goJoin "=" ((splitL (String.data "=") post).map (fun l => String.mk l)) =
          String.mk post := by
        show String.mk (joinL (String.data "=")
            (((splitL (String.data "=") post).map (fun l => String.mk l)).map String.data)) = _
        simp only [List.map_map]
        rw [hid, List.map_id]
        rw [joinL_splitL (String.data "=") (by decide) post.length post (Nat.le_refl _)]
      rw [hjoin2]
    · intro hb
      have houter : goSplit (goTrim (goJoin ";" ((goSplit cd ";").drop 1))) "=" =
          [goTrim (goJoin ";" ((goSplit cd ";").drop 1))] := by
        show (splitL (String.data "=")
            (goTrim (goJoin ";" ((goSplit cd ";").drop 1))).data).map (fun l => String.mk l) = _
        rw [splitL_of_none (String.data "=") _ hb]
        rfl
      unfold GetFilenameFromContentDisposition
      rw [if_pos hcond]
      rw [houter]
      rfl

/-- C10 witness: the amended theorem evaluated on the lower-case header
from the repository's multipart test mail. -/
theorem claim_C10_witness :
    GetFilenameFromContentDisposition "attachment;filename=\"file.pdf\"" = "file.pdf" := by
  have h := ((claim_C10 "attachment;filename=\"file.pdf\"").2
    "filename=\"file.pdf\"" (by rfl) (by rfl) (by decide)).1
    (String.data "filename") (String.data "\"file.pdf\"") (by decide)
  rw [h]
  rfl

/-!
## Claim C9 — DatabaseReceiver.Receive and the dispatcher wait group

`DatabaseReceiver.Receive(mailItem, wg)` from the source:
`wg.Add(1)` on entry; on a `StoreMail` error it logs and returns the
error immediately; on success it logs the new id, calls `wg.Done()` and
returns `nil`.  The storage engine is the opaque `IStorage` port, so the
outcome of `StoreMail` for the given mail item is a parameter: `ok id`
or `error msg`.  The wait-group counter is modelled as an integer.
-/

/-- `DatabaseReceiver.Receive`: returns the wait-group counter after the
invocation together with the returned error value. -/
def DatabaseReceiver_Receive (storeMailResult : Except String String) (wg : Int) :
    Int × Except String Unit :=
  let wg1 := wg + 1
  match storeMailResult with
  | .error msg => (wg1, .error msg)
  | .ok _ => (wg1 - 1, .ok ())

/-- C9: on the success path the wait group is balanced (net change zero),
but when `StoreMail` returns an error `Receive` returns before calling
`wg.Done()`, leaving the counter incremented — the net change is `+1`,
not zero, so the completion of that invocation is never observable. -/
theorem claim_C9_theorem :
    (∀ id wg, DatabaseReceiver_Receive (.ok id) wg = (wg, .ok ())) ∧
    (∀ msg wg, DatabaseReceiver_Receive (.error msg) wg = (wg + 1, .error msg)) ∧
    (DatabaseReceiver_Receive (.error "connection lost") 0).1 = 1 := by
  refine ⟨fun id wg => ?_, fun msg wg => ?_, by decide⟩
  · unfold DatabaseReceiver_Receive
    simp
  · rfl

/-!
## Header unfolding and MailHeader.Parse
-/

/-- Is this line a header continuation line (starts with whitespace)? -/
def lineIsContinuation (l : String) : Bool :=
  match l.data with
  | [] => false
  | c :: _ => charIsSpace c

/-- Worker for `UnfoldHeaders`: `cur` is the line being assembled. -/
def unfoldAux : List String → String → List String
  | [], cur => [cur]
  | l :: rest, cur =>
    if lineIsContinuation l then
      unfoldAux rest (cur ++ " " ++ String.mk (trimLeftL l.data))
    else cur :: unfoldAux rest l

/-- Modelled from the spec: `UnfoldHeaders` — continuation lines
(starting with whitespace) are joined onto the preceding line with the
continuation's leading whitespace collapsed to a single space.  The
implementation lives in the repository's header package, which is not
under `src/`; the behaviour matches the expectation recorded in
`Set_test.go`. -/
def UnfoldHeaders (s : String) : String :=
  match goSplit s "\r\n" with
  | [] => s
  | first :: rest => goJoin "\r\n" (unfoldAux rest first)

/-- The `MailHeader` structure from `MailHeader.go` (logger omitted). -/
structure MailHeaderM where
  ContentType : String := ""
  Boundary : String := ""
  MIMEVersion : String := ""
  Subject : String := ""
  Date : String := ""
  XMailer : String := ""
deriving DecidableEq, Repr

/-- One iteration of the header loop in `MailHeader.Parse`: split the
line on `":"`, switch on the lower-cased key, and update the matching
field.  `pd` is the external `ParseDateTime` helper (not under `src/`),
threaded as a port. -/
def mailHeaderStep (pd : String → String) (h : MailHeaderM) (line : String) : MailHeaderM :=
  let splitItem := goSplit line ":"
  let key := splitItem.headD ""
  if goToLower key = "content-type" then
    let contentType := goJoin "" (splitItem.drop 1)
    let contentTypeSplit := goSplit contentType ";"
    let h1 := { h with ContentType := goTrim (contentTypeSplit.headD "") }
    if contentTypeSplit.length > 1 then
      let contentTypeRightSide := goJoin ";" (contentTypeSplit.drop 1)
      if goContains (goToLower contentTypeRightSide) "boundary" then
        let boundarySplit := goSplit contentTypeRightSide "="
        { h1 with Boundary := goReplaceAll (goJoin "=" (boundarySplit.drop 1)) "\"" "" }
      else h1
    else h1
  else if goToLower key = "date" then
    { h with Date := pd (goJoin ":" (splitItem.drop 1)) }
  else if goToLower key = "mime-version" then
    { h with MIMEVersion := goTrim (goJoin "" (splitItem.drop 1)) }
  else if goToLower key = "subject" then
    let s := goTrim (goJoin "" (splitItem.drop 1))
    { h with Subject := if s = "" then "(No Subject)" else s }
  else h

/-- `MailHeader.Parse` from the source: set `XMailer` and clear the
boundary, split the DATA contents at the first blank line, fail with the
`Expected DATA block…` error when there is no body section, unfold the
header block, and run the header loop over its lines.  `h0` is the
receiver (the worker passes a zero `MailHeader`). -/
def mailHeaderParse (pd : String → String) (h0 : MailHeaderM) (contents : String) :
    Except String MailHeaderM :=
  let h := { h0 with XMailer := "MailSlurper!", Boundary := "" }
  let headerBodySplit := goSplit contents "\r\n\r\n"
  if headerBodySplit.length < 2 then
    .error "Expected DATA block to contain a header section and a body section"
  else
    let headerBlock := UnfoldHeaders (headerBodySplit.headD "")
    let splitHeader := goSplit headerBlock "\r\n"
    .ok (splitHeader.foldl (mailHeaderStep pd) h)

/-!
## Data model: attachments, message parts, mail items
-/

/-- `AttachmentHeader` from the source. -/
structure AttachmentHeaderM where
  ContentType : String := ""
  MIMEVersion : String := ""
  ContentTransferEncoding : String := ""
  ContentDisposition : String := ""
  FileName : String := ""
deriving DecidableEq, Repr

/-- `Attachment` from the source: headers plus raw (undecoded) contents. -/
structure AttachmentM where
  Headers : AttachmentHeaderM
  Contents : String
deriving DecidableEq, Repr

/-- `SMTPMessagePart` from the source: the parsed `mail.Message` is
reduced to its header list and body string, plus the ordered children. -/
inductive MessagePartM where
  | mk (headers : List (String × String)) (body : String) (parts : List MessagePartM)

/-- Header list of a message part. -/
def MessagePartM.headers : MessagePartM → List (String × String)
  | .mk h _ _ => h

/-- Raw body of a message part (`GetBody`). -/
def MessagePartM.body : MessagePartM → String
  | .mk _ b _ => b

/-- Child parts of a message part (`GetMessageParts`). -/
def MessagePartM.parts : MessagePartM → List MessagePartM
  | .mk _ _ p => p

/-- Case-insensitive first-value lookup, the behaviour of both
`net/textproto.MIMEHeader.Get` and `net/mail.Header.Get` as used by
`GetHeader`; the empty string when the key is absent. -/
def headerGet (hs : List (String × String)) (key : String) : String :=
  match hs.find? (fun kv => goToLower kv.1 = goToLower key) with
  | some kv => kv.2
  | none => ""

/-- `GetHeader` on a message part. -/
def MessagePartM.getHeader (p : MessagePartM) (key : String) : String :=
  headerGet p.headers key

/-- `GetContentType` on a message part. -/
def MessagePartM.getContentType (p : MessagePartM) : String :=
  p.getHeader "Content-Type"

/-- `GetContentDisposition` on a message part. -/
def MessagePartM.getContentDisposition (p : MessagePartM) : String :=
  p.getHeader "Content-Disposition"

/-- `MailItem` from `MailItem.go` (the `Message` tree field holds the
root `SMTPMessagePart`). -/
structure MailItemM where
  ID : String := ""
  DateSent : String := ""
  FromAddress : String := ""
  ToAddresses : List String := []
  Subject : String := ""
  XMailer : String := ""
  MIMEVersion : String := ""
  Body : String := ""
  ContentType : String := ""
  Boundary : String := ""
  Attachments : List AttachmentM := []
  InlineAttachments : List AttachmentM := []
  TextBody : String := ""
  HTMLBody : String := ""
  Message : MessagePartM := .mk [] "" []

/-!
## Go standard-library collaborators

`net/textproto.ReadMIMEHeader`, `mime.ParseMediaType` and the
`mime/multipart` reader are external to the repository; they are
modelled here with the behaviour the source relies on (header lines up
to the first blank line with folded continuations, a lower-cased media
type with a parameter list, and boundary-delimited part extraction).
-/

/-- Worker for `readMIMEHeader`: accumulate header pairs (most recent
first) until a blank line; running out of input before the blank line is
the EOF error `textproto` reports. -/
def rmhAux : List String → List (String × String) → Except String (List (String × String))
  | [], _ => .error "EOF reading MIME header"
  | l :: rest, acc =>
    if l = "" then .ok acc.reverse
    else if lineIsContinuation l then
      match acc with
      | [] => .error "malformed MIME header initial line"
      | (k, v) :: acc2 => rmhAux rest ((k, v ++ " " ++ String.mk (trimL l.data)) :: acc2)
    else
      match breakOnFirst (String.data ":") l.data with
      | none => .error ("malformed MIME header line: " ++ l)
      | some (k, v) => rmhAux rest ((String.mk k, String.mk (trimLeftL v)) :: acc)

/-- `textproto.Reader.ReadMIMEHeader` applied to the start of the DATA
block: parse header lines up to the first blank line. -/
def readMIMEHeader (contents : String) : Except String (List (String × String)) :=
  if contents = "" then .error "EOF reading MIME header"
  else rmhAux (goSplit contents "\r\n") []

/-- First value for `key` in a media-type parameter list, or `""`. -/
def paramsGet (params : List (String × String)) (key : String) : String :=
  match params.find? (fun kv => kv.1 = key) with
  | some kv => kv.2
  | none => ""

/-- `mime.ParseMediaType`: the media type is the lower-cased trimmed
text before the first `";"` (an empty one is the `mime: no media type`
error); parameters are `key=value` segments with quotes stripped
(malformed segments are ignored — the source never feeds any). -/
def parseMediaType (ct : String) : Except String (String × List (String × String)) :=
  let segs := goSplit ct ";"
  let mediaType := goToLower (goTrim (segs.headD ""))
  if mediaType = "" then .error "mime: no media type"
  else
    .ok (mediaType, (segs.drop 1).filterMap (fun seg =>
      match breakOnFirst (String.data "=") (goTrim seg).data with
      | none => none
      | some (k, v) => some (goToLower (goTrim (String.mk k)), goReplaceAll (String.mk v) "\"" "")))

/-- A raw multipart part: its MIME headers and its body text. -/
abbrev MpPart := List (String × String) × String

/-- Phase of the multipart scanner. -/
inductive MpState where
  | scan
  | hdrs (done : List MpPart) (acc : List (String × String))
  | body (done : List MpPart) (hs : List (String × String)) (bodyLines : List String)

/-- Line-by-line model of the `mime/multipart` reader loop: skip the
preamble until the first `--boundary` line (end of input or an
immediate closing line means zero parts and `io.EOF`, which the source
treats as success); inside a part read MIME headers up to a blank line
and then body lines up to the next delimiter; input ending without the
closing delimiter is the reader's unexpected-EOF error. -/
def mpRun (delim closing : String) : List String → MpState → Except String (List MpPart)
  | [], .scan => .ok []
  | [], .hdrs _ _ => .error "multipart: unexpected EOF reading part headers"
  | [], .body _ _ _ => .error "multipart: unexpected EOF reading part body"
  | l :: rest, .scan =>
    if l = closing then .ok []
    else if l = delim then mpRun delim closing rest (.hdrs [] [])
    else mpRun delim closing rest .scan
  | l :: rest, .hdrs done acc =>
    if l = "" then mpRun delim closing rest (.body done acc.reverse [])
    else if lineIsContinuation l then
      match acc with
      | [] => .error "multipart: malformed part header"
      | (k, v) :: acc2 =>
        mpRun delim closing rest (.hdrs done ((k, v ++ " " ++ String.mk (trimL l.data)) :: acc2))
    else
      match breakOnFirst (String.data ":") l.data with
      | none => .error ("multipart: malformed part header line: " ++ l)
      | some (k, v) => mpRun delim closing rest (.hdrs done ((String.mk k, String.mk (trimLeftL v)) :: acc))
  | l :: rest, .body done hs bodyLines =>
    if l = closing then .ok (done ++ [(hs, goJoin "\r\n" bodyLines)])
    else if l = delim then
      mpRun delim closing rest (.hdrs (done ++ [(hs, goJoin "\r\n" bodyLines)]) [])
    else mpRun delim closing rest (.body done hs (bodyLines ++ [l]))

/-- All parts of `body` delimited by `boundary`, in source order. -/
def multipartSplit (boundary body : String) : Except String (List MpPart) :=
  mpRun ("--" ++ boundary) ("--" ++ boundary ++ "--") (goSplit body "\r\n") .scan

/-!
## Header sets and BuildMessages / ParseMessages
-/

/-- Worker for `headerSetParse`: split each line on the first `":"`,
trim key and value; a non-empty line without `":"` is the fatal
`Error parsing header` error; empty lines are skipped. -/
def hsAux : List String → List (String × String) → Except String (List (String × String))
  | [], acc => .ok acc.reverse
  | l :: rest, acc =>
    if l = "" then hsAux rest acc
    else
      match breakOnFirst (String.data ":") l.data with
      | none => .error ("Error parsing header: invalid header '" ++ l ++ "'")
      | some (k, v) => hsAux rest ((goTrim (String.mk k), goTrim (String.mk v)) :: acc)

/-- Modelled from the spec: `NewHeaderSet` — unfold the header block,
split each line on the first `":"` with key and value trimmed, and fail
with an `InvalidHeader` parse error on a line without `":"`.  The `Set`
implementation lives in the repository's header package, which is not
under `src/`; the behaviour matches `Set_test.go`. -/
def headerSetParse (s : String) : Except String (List (String × String)) :=
  hsAux (goSplit (UnfoldHeaders s) "\r\n") []

/-- Recursion step shared by `parseMessagesF`: build the children of
each raw part.  `pm` parses one nesting level deeper.  Source order and
behaviour follow `SMTPMessagePart.ParseMessages`: the sub-part's own
boundary comes from its `Content-Type` (a missing or empty content type
makes `mime.ParseMediaType` fail and aborts the loop), the recursive
`ParseMessages` call's error is discarded, and the new child keeps the
raw part body. -/
def parsePartsWith (pm : String → String → Except String (List MessagePartM)) :
    List MpPart → Except String (List MessagePartM)
  | [] => .ok []
  | (hs, bd) :: rest =>
    match parseMediaType (headerGet hs "Content-Type") with
    | .error e => .error e
    | .ok mtp =>
      let boundary2 := paramsGet mtp.2 "boundary"
      let children := match pm bd boundary2 with
        | .error _ => []
        | .ok cs => cs
      match parsePartsWith pm rest with
      | .error e => .error e
      | .ok others => .ok (MessagePartM.mk hs bd children :: others)

/-- `SMTPMessagePart.ParseMessages`: run the multipart reader over the
body and build a child part per extracted part, recursing into each
child's own body.  The fuel bounds the nesting depth; each level's body
is strictly shorter than its parent's, so `body.length + 1` at the root
is always sufficient and the zero-fuel branch is unreachable from
`BuildMessages`. -/
def parseMessagesF (fuel : Nat) : String → String → Except String (List MessagePartM) :=
  Nat.rec (motive := fun _ => String → String → Except String (List MessagePartM))
    (fun _ _ => .ok [])
    (fun _ pm body boundary =>
      match multipartSplit boundary body with
      | .error e => .error e
      | .ok parts => parsePartsWith pm parts)
    fuel

/-- `SMTPMessagePart.BuildMessages`: parse the header block before the
first blank line into the part's header set; a non-multipart content
type makes the part a leaf holding the entire raw input as its body;
a `multipart/…` content type additionally runs `ParseMessages` with the
boundary parameter. -/
def BuildMessages (body : String) : Except String MessagePartM :=
  let headerBodySplit := goSplit body "\r\n\r\n"
  match headerSetParse (headerBodySplit.headD "") with
  | .error e => .error e
  | .ok hs =>
    match parseMediaType (headerGet hs "Content-Type") with
    | .error e => .error e
    | .ok mtp =>
      if goStartsWith mtp.1 "multipart/" then
        let boundary := paramsGet mtp.2 "boundary"
        match parseMessagesF (body.length + 1) body boundary with
        | .error e => .error e
        | .ok children => .ok (.mk hs body children)
      else .ok (.mk hs body [])

/-!
## The SMTP worker's DATA processing
-/

/-- The external collaborators of the worker, threaded as ports:
the `XSSServiceProvider` sanitizer, the `EmailValidationProvider`
(`GetEmailComponents` returns the parsed address or fails, `IsValidEmail`
is the boolean check), and the `ParseDateTime` date canonicaliser. -/
structure Ports where
  sanitize : String → String
  getEmailComponents : String → Option String
  isValidEmail : String → Bool
  parseDateTime : String → String

/-- `SMTPWorker.getBodyContent`: everything after the first blank line,
or an error when there is no blank line. -/
def getBodyContent (contents : String) : Except String String :=
  let headerBodySplit := goSplit contents "\r\n\r\n"
  if headerBodySplit.length < 2 then
    .error "Expected DATA block to contain a header section and a body section"
  else .ok (goJoin "\r\n\r\n" (headerBodySplit.drop 1))

/-- `SMTPWorker.processTextMail`: store subject, date and content type
from the initial headers and set both `TextBody` and `Body` to the body
content (the empty string when `getBodyContent` fails; the call site in
`ProcessDATA` discards the returned error). -/
def processTextMail (P : Ports) (headers : List (String × String)) (contents : String)
    (m : MailItemM) : MailItemM :=
  let tb := match getBodyContent contents with
    | .error _ => ""
    | .ok s => s
  { m with Subject := headerGet headers "Subject",
           DateSent := P.parseDateTime (headerGet headers "Date"),
           ContentType := headerGet headers "Content-Type",
           TextBody := tb,
           Body := tb }

/-- `SMTPWorker.processHTMLMail`: as `processTextMail` but populating
`HTMLBody`. -/
def processHTMLMail (P : Ports) (headers : List (String × String)) (contents : String)
    (m : MailItemM) : MailItemM :=
  let hb := match getBodyContent contents with
    | .error _ => ""
    | .ok s => s
  { m with Subject := headerGet headers "Subject",
           DateSent := P.parseDateTime (headerGet headers "Date"),
           ContentType := headerGet headers "Content-Type",
           HTMLBody := hb,
           Body := hb }

/-- `SMTPWorker.isMIMEType`. -/
def isMIMEType (p : MessagePartM) (mimeType : String) : Bool :=
  goStartsWith p.getContentType mimeType

/-- `SMTPWorker.messagePartIsAttachment`. -/
def messagePartIsAttachment (p : MessagePartM) : Bool :=
  goContains p.getContentDisposition "attachment"

/-- `SMTPWorker.addAttachment`: build the attachment from the part's
headers and body and append it to `Attachments` when its disposition
contains `attachment`, otherwise to `InlineAttachments`. -/
def addAttachment (p : MessagePartM) (m : MailItemM) : MailItemM :=
  let headers : AttachmentHeaderM :=
    { ContentType := p.getHeader "Content-Type",
      MIMEVersion := p.getHeader "MIME-Version",
      ContentTransferEncoding := p.getHeader "Content-Transfer-Encoding",
      ContentDisposition := p.getContentDisposition,
      FileName := GetFilenameFromContentDisposition p.getContentDisposition }
  let attachment : AttachmentM := { Headers := headers, Contents := p.body }
  if messagePartIsAttachment p then
    { m with Attachments := m.Attachments ++ [attachment] }
  else
    { m with InlineAttachments := m.InlineAttachments ++ [attachment] }

/-- `SMTPWorker.recordMessagePart`: a `text/plain` non-attachment part
fills the still-empty `TextBody`; else a `text/html` non-attachment
part fills the still-empty `HTMLBody`; else a `multipart` part recurses
into its children; anything else becomes an attachment.  The fuel bounds
the tree depth (sufficient fuel is supplied by `processDATA`). -/
def recordMessagePartF (fuel : Nat) : MessagePartM → MailItemM → MailItemM :=
  Nat.rec (motive := fun _ => MessagePartM → MailItemM → MailItemM)
    (fun _ m => m)
    (fun _ rec p m =>
      if isMIMEType p "text/plain" ∧ m.TextBody = "" ∧ ¬ messagePartIsAttachment p then
        { m with TextBody := p.body }
      else if isMIMEType p "text/html" ∧ m.HTMLBody = "" ∧ ¬ messagePartIsAttachment p then
        { m with HTMLBody := p.body }
      else if isMIMEType p "multipart" then
        p.parts.foldl (fun acc c => rec c acc) m
      else addAttachment p m)
    fuel

/-- `SMTPWorker.ProcessDATA` as a function of the command line, the
DATA block delivered by `Reader.ReadDataBlock`, and the mail item under
construction.  Returns the error value, the updated mail item and the
SMTP reply codes written (`354` data response, `250` OK, `554`
transaction failed — the `SMTPWriter` is not under `src/`, and the codes
follow the spec's table). -/
def processDATA (P : Ports) (streamInput block : String) (m : MailItemM) :
    Except ErrM Unit × MailItemM × List Nat :=
  if goContains (goToLower streamInput) "data" = false then
    (.error (.generic "Invalid command for DATA"), m, [])
  else
    match readMIMEHeader block with
    | .error e => (.error (.generic ("Unable to read MIME header for data block: " ++ e)), m, [354])
    | .ok initialHeaders =>
      if goContains (headerGet initialHeaders "Content-Type") "text/plain" then
        (.ok (), processTextMail P initialHeaders block m, [354, 250])
      else if goContains (headerGet initialHeaders "Content-Type") "text/html" then
        (.ok (), processHTMLMail P initialHeaders block m, [354, 250])
      else
        match BuildMessages block with
        | .error e => (.error (.generic ("Problem parsing message contents: " ++ e)), m, [354, 554])
        | .ok msg =>
          let m1 := { m with Message := msg,
                             Subject := msg.getHeader "Subject",
                             DateSent := P.parseDateTime (msg.getHeader "Date"),
                             ContentType := msg.getHeader "Content-Type" }
          if msg.parts.length > 0 then
            let m2 := msg.parts.foldl (fun acc part => recordMessagePartF (block.length + 1) part acc) m1
            let m3 := if m2.HTMLBody ≠ "" then { m2 with Body := m2.HTMLBody }
              else { m2 with Body := m2.TextBody }
            (.ok (), m3, [354, 250])
          else
            (.error (.generic "Message part has no parts!"), m1, [354, 554])

/-!
## The SMTP worker: commands, session loop
-/

/-- The SMTP command constants. -/
inductive SMTPCommand where
  | HELO
  | MAIL
  | RCPT
  | DATA
  | RSET
  | QUIT
  | NOOP
  | UNKNOWN
deriving DecidableEq, Repr

/-- Modelled from the spec: `GetCommandFromString` — the first
whitespace-delimited token of the line (case-insensitive) maps to one
of the commands (`EHLO` classifies with `HELO`); unknown tokens
classify as `UNKNOWN` and elicit a generic reply without terminating
the session, so the classifier is total.  The implementation is in the
repository's SMTP-constants file, which is not under `src/`. -/
def getCommandFromString (streamInput : String) : SMTPCommand :=
  let token := goToLower (String.mk ((fieldsL streamInput.data).headD []))
  if token = "helo" ∨ token = "ehlo" then .HELO
  else if token = "mail" then .MAIL
  else if token = "rcpt" then .RCPT
  else if token = "data" then .DATA
  else if token = "rset" then .RSET
  else if token = "quit" then .QUIT
  else if token = "noop" then .NOOP
  else .UNKNOWN

/-- `SMTPWorker.ProcessHELO`: the (vacuous) index check, then the
argument-count check, then the `250` greeting.  Returns the error, the
unchanged mail item and the replies written. -/
def processHELO (streamInput : String) (m : MailItemM) :
    Except ErrM Unit × MailItemM × List Nat :=
  let lowercaseStreamInput := goToLower streamInput
  let commandCheck : Int :=
    (goIndex lowercaseStreamInput "helo" + 1) + (goIndex lowercaseStreamInput "ehlo" + 1)
  if commandCheck < 0 then (.error (.generic "Invalid HELO command"), m, [])
  else if (goSplit streamInput " ").length < 2 then
    (.error (.generic "HELO command format is invalid"), m, [])
  else (.ok (), m, [250])

/-- `SMTPWorker.ProcessMAIL`: validate the command shape, extract the
payload after `":"`, parse it with the validation port (failure is
`InvalidEmail(payload)`), sanitize the parsed address, check it with
`IsValidEmail` (failure is `InvalidEmail(sanitized)`), and only then
store it in `FromAddress` and reply `250`. -/
def processMAIL (P : Ports) (streamInput : String) (m : MailItemM) :
    Except ErrM Unit × MailItemM × List Nat :=
  match IsValidCommand streamInput "MAIL FROM" with
  | .error e => (.error e, m, [])
  | .ok _ =>
    match GetCommandValue streamInput "MAIL FROM" ":" with
    | .error e => (.error e, m, [])
    | .ok fromValue =>
      match P.getEmailComponents fromValue with
      | none => (.error (.invalidEmail fromValue), m, [])
      | some fromComponents =>
        let fromAddr := P.sanitize fromComponents
        if P.isValidEmail fromAddr then
          (.ok (), { m with FromAddress := fromAddr }, [250])
        else (.error (.invalidEmail fromAddr), m, [])

/-- `SMTPWorker.ProcessRCPT`: as `ProcessMAIL` but appending to
`ToAddresses`. -/
def processRCPT (P : Ports) (streamInput : String) (m : MailItemM) :
    Except ErrM Unit × MailItemM × List Nat :=
  match IsValidCommand streamInput "RCPT TO" with
  | .error e => (.error e, m, [])
  | .ok _ =>
    match GetCommandValue streamInput "RCPT TO" ":" with
    | .error e => (.error e, m, [])
    | .ok toValue =>
      match P.getEmailComponents toValue with
      | none => (.error (.invalidEmail toValue), m, [])
      | some toComponents =>
        let toAddr := P.sanitize toComponents
        if P.isValidEmail toAddr then
          (.ok (), { m with ToAddresses := m.ToAddresses ++ [toAddr] }, [250])
        else (.error (.invalidEmail toAddr), m, [])

/-- `SMTPWorker.ExecuteCommand`: trim the line, dispatch on the
command; for `DATA`, a success additionally re-assigns
`Mail.Body := sanitize(Mail.Body)`; every unhandled command (including
`RSET`, `NOOP` and `UNKNOWN`) is a no-op with a `nil` error. -/
def executeCommand (P : Ports) (command : SMTPCommand) (streamInput block : String)
    (m : MailItemM) : Except ErrM Unit × MailItemM × List Nat :=
  let streamInput := goTrim streamInput
  match command with
  | .HELO => processHELO streamInput m
  | .MAIL => processMAIL P streamInput m
  | .RCPT => processRCPT P streamInput m
  | .DATA =>
    match processDATA P streamInput block m with
    | (.error e, m1, rs) => (.error e, m1, rs)
    | (.ok _, m1, rs) => (.ok (), { m1 with Body := P.sanitize m1.Body }, rs)
  | _ => (.ok (), m, [])

/-- The `SMTPWorkerState` constants. -/
inductive SMTPWorkerState where
  | IDLE
  | WORKING
  | DONE
  | ERROR
deriving DecidableEq, Repr

/-- `SMTPWorker.InitializeMailItem`: reset the recipient list, the
attachments and the message tree and stamp a fresh id; every other
field keeps its previous value (the worker is reused across sessions). -/
def initializeMailItem (prev : MailItemM) (id : String) : MailItemM :=
  { prev with ToAddresses := [], Attachments := [], Message := .mk [] "" [], ID := id }

/-- The loop-body effect of one executed command: an error moves the
worker to `ERROR` (the loop's `continue` then exits, skipping the
timeout check); on success the worker stays put unless
`TimeoutHasExpired`, which also moves it to `ERROR`. -/
def commandStep (P : Ports) (tmoN : Bool) (st : SMTPWorkerState) (command : SMTPCommand)
    (line block : String) (m : MailItemM) : SMTPWorkerState × MailItemM × List Nat :=
  match executeCommand P command line block m with
  | (.error _, m1, rs1) => (.ERROR, m1, rs1)
  | (.ok _, m1, rs1) => ((if tmoN then .ERROR else st), m1, rs1)

/-- One session's command loop (`SMTPWorker.Work`), driven by the list
of inputs the reader yields: each iteration reads a line; `QUIT` moves
to `DONE`; otherwise the command executes and an error moves to `ERROR`
and skips the timeout check; after a successful non-`QUIT` command (and
after `QUIT`) an expired timeout moves to `ERROR`.  A `DATA` command
additionally consumes the next input element as the block delivered by
`ReadDataBlock`.  `tmo n` is `TimeoutHasExpired` at iteration `n`; the
loop stops in state `DONE` or `ERROR`, or when input is exhausted
(where the real reader would block).  Returns the final state, the mail
item, and the reply codes written. -/
def workLoop (P : Ports) (tmo : Nat → Bool) :
    List String → Nat → SMTPWorkerState → MailItemM → List Nat →
    SMTPWorkerState × MailItemM × List Nat
  | [] => fun _ st m rs => (st, m, rs)
  | line :: rest => fun n st m rs =>
    if st = .DONE ∨ st = .ERROR then (st, m, rs)
    else
      let command := getCommandFromString line
      if command = .QUIT then
        workLoop P tmo rest (n + 1) (if tmo n then .ERROR else .DONE) m rs
      else if command = .DATA then
        match rest with
        | [] =>
          let r := commandStep P (tmo n) st command line "" m
          (r.1, r.2.1, rs ++ r.2.2)
        | block :: rest2 =>
          let r := commandStep P (tmo n) st command line block m
          workLoop P tmo rest2 (n + 1) r.1 r.2.1 (rs ++ r.2.2)
      else
        let r := commandStep P (tmo n) st command line "" m
        workLoop P tmo rest (n + 1) r.1 r.2.1 (rs ++ r.2.2)

/-- `SMTPWorker.Work` for one session of a fresh worker (zero-valued
mail item): initialize the mail item with the generated `id`, say hello
(`220`), run the command loop from `WORKING`, say goodbye (`221`) and
close; the mail item is sent on the receiver channel unless the state
is `ERROR`.  Returns the final state, the final mail item, the replies,
and the list of items sent on the channel. -/
def work (P : Ports) (tmo : Nat → Bool) (id : String) (inputs : List String) :
    SMTPWorkerState × MailItemM × List Nat × List MailItemM :=
  match workLoop P tmo inputs 0 .WORKING (initializeMailItem {} id) [220] with
  | (st, m, rs) => (st, m, rs ++ [221], if st ≠ SMTPWorkerState.ERROR then [m] else [])

/-- Definitional unfolding of one loop iteration. -/
theorem workLoop_cons (P : Ports) (tmo : Nat → Bool) (line : String) (rest : List String)
    (n : Nat) (st : SMTPWorkerState) (m : MailItemM) (rs : List Nat) :
    workLoop P tmo (line :: rest) n st m rs =
      (if st = .DONE ∨ st = .ERROR then (st, m, rs)
       else
         let command := getCommandFromString line
         if command = .QUIT then
           workLoop P tmo rest (n + 1) (if tmo n then .ERROR else .DONE) m rs
         else if command = .DATA then
           match rest with
           | [] =>
             let r := commandStep P (tmo n) st command line "" m
             (r.1, r.2.1, rs ++ r.2.2)
           | block :: rest2 =>
             let r := commandStep P (tmo n) st command line block m
             workLoop P tmo rest2 (n + 1) r.1 r.2.1 (rs ++ r.2.2)
         else
           let r := commandStep P (tmo n) st command line "" m
           workLoop P tmo rest (n + 1) r.1 r.2.1 (rs ++ r.2.2)) := by
  rw [workLoop]

/-- The loop in `Work` runs only while the state is neither `DONE` nor
`ERROR`; in a terminal state it returns immediately. -/
theorem workLoop_stopped (P : Ports) (tmo : Nat → Bool) (inputs : List String) (n : Nat)
    (st : SMTPWorkerState) (m : MailItemM) (rs : List Nat)
    (h : st = .DONE ∨ st = .ERROR) :
    workLoop P tmo inputs n st m rs = (st, m, rs) := by
  cases inputs with
  | nil => rfl
  | cons line rest =>
    rw [workLoop_cons]
    rw [if_pos h]

/-- A concrete address parser instantiating the validation port in
witness sessions: trim, strip one surrounding angle-bracket pair, split
at the first `@`, and require a non-empty local part and a domain
containing a dot. -/
def demoGetEmailComponents (s : String) : Option String :=
  let t := goTrim s
  let t := if goStartsWith t "<" ∧ goStartsWith (String.mk t.data.reverse) ">" then
      String.mk (((t.data.drop 1).reverse.drop 1).reverse)
    else t
  match breakOnFirst (String.data "@") t.data with
  | none => none
  | some (l, d) =>
    if l ≠ [] ∧ d ≠ [] ∧ containsL d (String.data ".") then some (String.mk (l ++ '@' :: d))
    else none

/-- Concrete ports for witness sessions: identity sanitizer, the demo
address parser, and identity date parsing. -/
def demoPorts : Ports :=
  { sanitize := fun s => s,
    getEmailComponents := demoGetEmailComponents,
    isValidEmail := fun s => (demoGetEmailComponents s).isSome,
    parseDateTime := fun s => s }

/-- The all-clear timeout schedule (no iteration times out). -/
def noTimeout : Nat → Bool := fun _ => false

/-!
## Claim C5 — no delivery on error
-/

/-- C5: for every port instantiation, timeout schedule, generated id and
input trace, a session whose worker ends in the `ERROR` state sends no
`MailItem` on the output channel, so no receiver is ever invoked with
one. -/
theorem claim_C5 (P : Ports) (tmo : Nat → Bool) (id : String) (inputs : List String)
    (h : (work P tmo id inputs).1 = .ERROR) :
    (work P tmo id inputs).2.2.2 = [] := by
  unfold work at h ⊢
  rcases hp : workLoop P tmo inputs 0 .WORKING (initializeMailItem {} id) [220]
    with ⟨st, m2, rs⟩
  simp only [hp] at h ⊢
  rw [h]
  simp

/-- C5 witness: a session whose `MAIL FROM` has no colon ends in
`ERROR`, and the theorem yields that nothing was sent. -/
theorem claim_C5_witness :
    (work demoPorts noTimeout "id" ["MAIL FROM bad"]).1 = .ERROR ∧
    (work demoPorts noTimeout "id" ["MAIL FROM bad"]).2.2.2 = [] := by
  have h1 : (work demoPorts noTimeout "id" ["MAIL FROM bad"]).1 = .ERROR := by decide
  exact ⟨h1, claim_C5 demoPorts noTimeout "id" ["MAIL FROM bad"] h1⟩

/-!
## Claim C6 — at most one MailItem per connection
-/

/-- C6 counterexample: a connection that only greets and quits — zero
`MAIL FROM … DATA … .` transactions, as witnessed by the empty sender,
recipient list and body — still enqueues one (empty) `MailItem`,
because `Work` sends the worker's mail item whenever the final state is
not `ERROR`. -/
theorem claim_C6_counterexample :
    (work demoPorts noTimeout "id" ["HELO host", "QUIT"]).2.2.2.length = 1 ∧
    (work demoPorts noTimeout "id" ["HELO host", "QUIT"]).1 = .DONE ∧
    (work demoPorts noTimeout "id" ["HELO host", "QUIT"]).2.1.FromAddress = "" ∧
    (work demoPorts noTimeout "id" ["HELO host", "QUIT"]).2.1.ToAddresses = [] ∧
    (work demoPorts noTimeout "id" ["HELO host", "QUIT"]).2.1.Body = "" := by
  refine ⟨?_, ?_, ?_, ?_, ?_⟩ <;> rfl

/-- C6 (amended): a worker session enqueues at most one `MailItem` in
total — exactly one when the session does not end in `ERROR` (even when
it completed zero transactions, e.g. a greet-and-`QUIT` connection
enqueues one empty item), and zero otherwise. -/
theorem claim_C6 (P : Ports) (tmo : Nat → Bool) (id : String) (inputs : List String) :
    (work P tmo id inputs).2.2.2.length ≤ 1 ∧
    ((work P tmo id inputs).1 ≠ .ERROR → (work P tmo id inputs).2.2.2.length = 1) := by
  unfold work
  rcases hp : workLoop P tmo inputs 0 .WORKING (initializeMailItem {} id) [220]
    with ⟨st, m2, rs⟩
  simp only [hp]
  constructor
  · split
    · simp
    · simp
  · intro h
    rw [if_pos h]
    simp

/-- C6 witness: the amended theorem evaluated on the greet-and-quit
session, which ends in `DONE` and enqueues exactly one item. -/
theorem claim_C6_witness :
    (work demoPorts noTimeout "id" ["HELO host", "QUIT"]).2.2.2.length = 1 := by
  exact (claim_C6 demoPorts noTimeout "id" ["HELO host", "QUIT"]).2 (by decide)

/-!
## Claim C1 — command errors and the session loop
-/

/-- C1 counterexample: after a `DATA`-time parse error (a header line
with no colon) the session is not ready for another `MAIL FROM` — the
worker exits its command loop in state `ERROR`, the later
`MAIL FROM: e@f.co` line is never processed (the stored sender is still
the first one), no error reply was sent (replies are the greeting, the
three `250`s, the `354` data response and the unconditional `221`
goodbye), and the mail item is discarded. -/
theorem claim_C1_counterexample :
    (work demoPorts noTimeout "id"
      ["HELO h", "MAIL FROM: a@b.co", "RCPT TO: c@d.co", "DATA",
       "garbage no colon\r\n\r\nbody", "MAIL FROM: e@f.co", "QUIT"]).1 = .ERROR ∧
    (work demoPorts noTimeout "id"
      ["HELO h", "MAIL FROM: a@b.co", "RCPT TO: c@d.co", "DATA",
       "garbage no colon\r\n\r\nbody", "MAIL FROM: e@f.co", "QUIT"]).2.1.FromAddress = "a@b.co" ∧
    (work demoPorts noTimeout "id"
      ["HELO h", "MAIL FROM: a@b.co", "RCPT TO: c@d.co", "DATA",
       "garbage no colon\r\n\r\nbody", "MAIL FROM: e@f.co", "QUIT"]).2.2.1 =
      [220, 250, 250, 250, 354, 221] ∧
    (work demoPorts noTimeout "id"
      ["HELO h", "MAIL FROM: a@b.co", "RCPT TO: c@d.co", "DATA",
       "garbage no colon\r\n\r\nbody", "MAIL FROM: e@f.co", "QUIT"]).2.2.2.length = 0 := by
  refine ⟨?_, ?_, ?_, ?_⟩ <;> rfl

/-- C1 (amended): only unknown commands are harmless — they classify as
`UNKNOWN`, execute as a no-op with a `nil` error and leave the worker in
its command loop.  Every other command-level error (invalid command
format, invalid email address, `DATA`-time parse failure) is returned
from `ExecuteCommand`, upon which `Work` sets the state to `ERROR` and
exits the loop at once, regardless of the timeout schedule: the session
terminates (and its mail item is then discarded), instead of staying in
the loop ready for another `MAIL FROM`. -/
theorem claim_C1 :
    (∀ (P : Ports) (tmo : Nat → Bool) (line : String) (rest : List String) (n : Nat)
       (m : MailItemM) (rs : List Nat),
       getCommandFromString line = .UNKNOWN → tmo n = false →
       workLoop P tmo (line :: rest) n .WORKING m rs =
         workLoop P tmo rest (n + 1) .WORKING m rs) ∧
    (∀ (P : Ports) (tmo : Nat → Bool) (line : String) (rest : List String) (n : Nat)
       (m : MailItemM) (rs : List Nat) (e : ErrM) (m1 : MailItemM) (rs1 : List Nat),
       getCommandFromString line ≠ .QUIT → getCommandFromString line ≠ .DATA →
       executeCommand P (getCommandFromString line) line "" m = (.error e, m1, rs1) →
       workLoop P tmo (line :: rest) n .WORKING m rs = (.ERROR, m1, rs ++ rs1)) ∧
    (∀ (P : Ports) (tmo : Nat → Bool) (line block : String) (rest2 : List String) (n : Nat)
       (m : MailItemM) (rs : List Nat) (e : ErrM) (m1 : MailItemM) (rs1 : List Nat),
       getCommandFromString line = .DATA →
       executeCommand P .DATA line block m = (.error e, m1, rs1) →
       workLoop P tmo (line :: block :: rest2) n .WORKING m rs = (.ERROR, m1, rs ++ rs1)) := by
  refine ⟨?_, ?_, ?_⟩
  · intro P tmo line rest n m rs hu htmo
    rw [workLoop_cons]
    rw [if_neg (by simp)]
    rw [if_neg (by simp [hu]), if_neg (by simp [hu])]
    rw [hu]
    have hcs : commandStep P false .WORKING .UNKNOWN line "" m = (.WORKING, m, []) := rfl
    simp only [htmo, hcs]
    simp
  · intro P tmo line rest n m rs e m1 rs1 hq hd hex
    rw [workLoop_cons]
    rw [if_neg (by simp)]
    rw [if_neg hq, if_neg hd]
    have hcs : commandStep P (tmo n) .WORKING (getCommandFromString line) line "" m =
        (.ERROR, m1, rs1) := by
      unfold commandStep
      rw [hex]
    simp only [hcs]
    exact workLoop_stopped P tmo rest (n + 1) .ERROR m1 (rs ++ rs1) (Or.inr rfl)
  · intro P tmo line block rest2 n m rs e m1 rs1 hd hex
    rw [workLoop_cons]
    rw [if_neg (by simp)]
    rw [if_neg (by simp [hd]), if_pos hd]
    have hcs : commandStep P (tmo n) .WORKING (getCommandFromString line) line block m =
        (.ERROR, m1, rs1) := by
      unfold commandStep
      rw [hd, hex]
    simp only [hcs]
    exact workLoop_stopped P tmo rest2 (n + 1) .ERROR m1 (rs ++ rs1) (Or.inr rfl)

/-- C1 witness: an unknown command (`FOO bar`) leaves the loop running;
a `MAIL FROM` with no colon is a command-format error that makes the
very same loop finish in `ERROR`. -/
theorem claim_C1_witness :
    workLoop demoPorts noTimeout ["FOO bar", "QUIT"] 0 .WORKING
        (initializeMailItem {} "id") [220] =
      workLoop demoPorts noTimeout ["QUIT"] 1 .WORKING (initializeMailItem {} "id") [220] ∧
    workLoop demoPorts noTimeout ["MAIL FROM bad"] 0 .WORKING
        (initializeMailItem {} "id") [220] =
      (.ERROR, initializeMailItem {} "id", [220]) := by
  constructor
  · exact claim_C1.1 demoPorts noTimeout "FOO bar" ["QUIT"] 0
      (initializeMailItem {} "id") [220] (by decide) rfl
  · have h := claim_C1.2.1 demoPorts noTimeout "MAIL FROM bad" [] 0
      (initializeMailItem {} "id") [220] (.invalidCommandFormat "MAIL FROM")
      (initializeMailItem {} "id") [] (by decide) (by decide) rfl
    simpa using h

/-!
## Claim C2 — body selection
-/

/-- Body selection at the exit of `ProcessDATA`: on every successful
path (text/plain fast path, text/html fast path, multipart) the stored
`Body` is the `HTMLBody` when that is non-empty and the `TextBody`
otherwise, provided the mail item entered `ProcessDATA` with both body
variants still empty (as after a fresh worker's
`InitializeMailItem`). -/
theorem processDATA_body_selection (P : Ports) (si block : String) (m : MailItemM)
    (htb : m.TextBody = "") (hhb : m.HTMLBody = "")
    (hok : (processDATA P si block m).1 = .ok ()) :
    ((processDATA P si block m).2.1).Body =
      (if ((processDATA P si block m).2.1).HTMLBody ≠ "" then
        ((processDATA P si block m).2.1).HTMLBody
      else ((processDATA P si block m).2.1).TextBody) := by
  unfold processDATA at hok ⊢
  by_cases h0 : goContains (goToLower si) "data" = false
  · rw [if_pos h0] at hok
    simp at hok
  · rw [if_neg h0] at hok ⊢
    cases hrm : readMIMEHeader block with
    | error e =>
      rw [hrm] at hok
      simp at hok
    | ok hdrs =>
      rw [hrm] at hok
      simp only at hok ⊢
      by_cases h1 : goContains (headerGet hdrs "Content-Type") "text/plain" = true
      · rw [if_pos h1]
        unfold processTextMail
        simp only [hhb]
        simp
      · rw [if_neg h1] at hok ⊢
        by_cases h2 : goContains (headerGet hdrs "Content-Type") "text/html" = true
        · rw [if_pos h2]
          unfold processHTMLMail
          simp only [htb]
          by_cases h3 : (match getBodyContent block with
            | .error _ => ""
            | .ok s => s) = ""
          · simp [h3]
          · simp [h3]
        · rw [if_neg h2] at hok ⊢
          cases hbm : BuildMessages block with
          | error e =>
            rw [hbm] at hok
            simp at hok
          | ok msg =>
            rw [hbm] at hok
            simp only at hok ⊢
            by_cases h4 : msg.parts.length > 0
            · rw [if_pos h4]
              by_cases h5 :
                  (msg.parts.foldl
                    (fun acc part => recordMessagePartF (block.length + 1) part acc)
                    { m with Message := msg,
                             Subject := msg.getHeader "Subject",
                             DateSent := P.parseDateTime (msg.getHeader "Date"),
                             ContentType := msg.getHeader "Content-Type" }).HTMLBody = ""
              · simp [h5]
              · simp [h5]
            · rw [if_neg h4] at hok
              simp at hok

/-- C2: for every port instantiation whose sanitizer is the identity
(the sanitizer is an external collaborator; the spec only requires it to
be idempotent) and every DATA command executed on a mail item whose
body variants are still empty (a fresh worker session), a successful
`ExecuteCommand` leaves `MailItem.Body` equal to the HTML body when the
HTML body is a non-empty string and equal to the text body otherwise. -/
theorem claim_C2 (P : Ports) (line block : String) (m : MailItemM)
    (hsan : ∀ s, P.sanitize s = s)
    (htb : m.TextBody = "") (hhb : m.HTMLBody = "")
    (hok : (executeCommand P .DATA line block m).1 = .ok ()) :
    ((executeCommand P .DATA line block m).2.1).Body =
      (if ((executeCommand P .DATA line block m).2.1).HTMLBody ≠ "" then
        ((executeCommand P .DATA line block m).2.1).HTMLBody
      else ((executeCommand P .DATA line block m).2.1).TextBody) := by
  have hsel := processDATA_body_selection P (goTrim line) block m htb hhb
  unfold executeCommand at hok ⊢
  simp only at hok ⊢
  rcases hpd : processDATA P (goTrim line) block m with ⟨efst, m1, rs1⟩
  rw [hpd] at hsel hok
  cases efst with
  | error e => exact Except.noConfusion hok
  | ok u =>
    simp only at hsel ⊢
    rw [hsan]
    exact hsel trivial

/-- The spec's multipart/alternative end-to-end scenario block. -/
def demoAlternativeBlock : String :=
  "Content-Type: multipart/alternative; boundary=\"b\"\r\nSubject: s\r\n\r\n--b\r\nContent-Type: text/plain\r\n\r\nhi\r\n--b\r\nContent-Type: text/html\r\n\r\n<p>hi</p>\r\n--b--"

set_option maxRecDepth 8000 in
/-- C2 witness: the theorem evaluated on the multipart/alternative
scenario — the HTML body is chosen as the primary body. -/
theorem claim_C2_witness :
    (executeCommand demoPorts .DATA "DATA" demoAlternativeBlock {}).2.1.Body = "<p>hi</p>" ∧
    (executeCommand demoPorts .DATA "DATA" demoAlternativeBlock {}).2.1.HTMLBody = "<p>hi</p>" ∧
    (executeCommand demoPorts .DATA "DATA" demoAlternativeBlock {}).2.1.TextBody = "hi" := by
  have h := claim_C2 demoPorts "DATA" demoAlternativeBlock {} (fun _ => rfl) rfl rfl (by rfl)
  refine ⟨?_, ?_, ?_⟩
  · rw [h]
    rfl
  · rfl
  · rfl

/-!
## Claim C3 — ProcessMAIL
-/

/-- C3: once the `MAIL FROM` line has the right command shape and a
payload after the colon, then: a payload the validation port cannot
parse yields `InvalidEmail(payload)` with the mail item unchanged; a
parsed address whose sanitized form fails `IsValidEmail` yields
`InvalidEmail(sanitized)` with the mail item unchanged; and a valid
address stores exactly the sanitized parsed address in `FromAddress`
and replies `250`. -/
theorem claim_C3 (P : Ports) (line : String) (m : MailItemM) :
    (∀ payload, IsValidCommand line "MAIL FROM" = .ok () →
       GetCommandValue line "MAIL FROM" ":" = .ok payload →
       P.getEmailComponents payload = none →
       processMAIL P line m = (.error (.invalidEmail payload), m, [])) ∧
    (∀ payload addr, IsValidCommand line "MAIL FROM" = .ok () →
       GetCommandValue line "MAIL FROM" ":" = .ok payload →
       P.getEmailComponents payload = some addr →
       P.isValidEmail (P.sanitize addr) = false →
       processMAIL P line m = (.error (.invalidEmail (P.sanitize addr)), m, [])) ∧
    (∀ payload addr, IsValidCommand line "MAIL FROM" = .ok () →
       GetCommandValue line "MAIL FROM" ":" = .ok payload →
       P.getEmailComponents payload = some addr →
       P.isValidEmail (P.sanitize addr) = true →
       processMAIL P line m = (.ok (), { m with FromAddress := P.sanitize addr }, [250])) := by
  refine ⟨?_, ?_, ?_⟩
  · intro payload h1 h2 h3
    unfold processMAIL
    simp only [h1, h2, h3]
  · intro payload addr h1 h2 h3 h4
    unfold processMAIL
    simp only [h1, h2, h3, h4]
    simp
  · intro payload addr h1 h2 h3 h4
    unfold processMAIL
    simp only [h1, h2, h3, h4]
    simp

/-- Ports whose `IsValidEmail` rejects everything, exercising the
validation-failure branch. -/
def demoPortsReject : Ports :=
  { demoPorts with isValidEmail := fun _ => false }

/-- C3 witness: the three branches evaluated — the spec's invalid
address `from@` is refused with `InvalidEmail` and the sender is
unchanged; a rejecting validator also refuses with `InvalidEmail`; the
valid `adam@example.com` is stored exactly. -/
theorem claim_C3_witness :
    processMAIL demoPorts "MAIL FROM: from@" {} =
      (.error (.invalidEmail "from@"), {}, []) ∧
    processMAIL demoPortsReject "MAIL FROM: adam@example.com" {} =
      (.error (.invalidEmail "adam@example.com"), {}, []) ∧
    processMAIL demoPorts "MAIL FROM: adam@example.com" {} =
      (.ok (), { FromAddress := "adam@example.com" }, [250]) := by
  refine ⟨?_, ?_, ?_⟩
  · exact (claim_C3 demoPorts "MAIL FROM: from@" {}).1 "from@" rfl rfl rfl
  · exact (claim_C3 demoPortsReject "MAIL FROM: adam@example.com" {}).2.1
      "adam@example.com" "adam@example.com" rfl rfl rfl rfl
  · exact (claim_C3 demoPorts "MAIL FROM: adam@example.com" {}).2.2
      "adam@example.com" "adam@example.com" rfl rfl rfl rfl

/-!
## Claim C7 — subject defaulting
-/

/-- A header-loop iteration whose line's key is not `subject` leaves the
subject field unchanged. -/
theorem mailHeaderStep_subject_of_ne (pd : String → String) (h : MailHeaderM) (line : String)
    (hk : goToLower ((goSplit line ":").headD "") ≠ "subject") :
    (mailHeaderStep pd h line).Subject = h.Subject := by
  unfold mailHeaderStep
  simp only []
  split_ifs <;> rfl

/-- A fold of the header loop over lines without a `subject` key leaves
the subject field unchanged. -/
theorem mailHeaderFold_subject_of_ne (pd : String → String) :
    ∀ (lines : List String) (h : MailHeaderM),
      (∀ l ∈ lines, goToLower ((goSplit l ":").headD "") ≠ "subject") →
      (lines.foldl (mailHeaderStep pd) h).Subject = h.Subject := by
  intro lines
  induction lines with
  | nil => intro h _; rfl
  | cons l rest ih =>
    intro h hall
    simp only [List.foldl_cons]
    rw [ih (mailHeaderStep pd h l) (fun x hx => hall x (List.mem_cons_of_mem l hx))]
    exact mailHeaderStep_subject_of_ne pd h l (hall l (List.mem_cons_self l rest))

/-- C7 counterexample: on the text/plain fast path the stored subject is
the raw header value with no `(No Subject)` defaulting — both an absent
and a blank `Subject` header leave it empty, and the value is not passed
through the sanitizer. -/
theorem claim_C7_counterexample :
    (processDATA demoPorts "DATA" "Content-Type: text/plain\r\n\r\nhello" {}).1 = .ok () ∧
    (processDATA demoPorts "DATA" "Content-Type: text/plain\r\n\r\nhello" {}).2.1.Subject = "" ∧
    (processDATA demoPorts "DATA"
      "Subject:\r\nContent-Type: text/plain\r\n\r\nhello" {}).2.1.Subject = "" := by
  refine ⟨?_, ?_, ?_⟩ <;> rfl

/-- C7 (amended): the `(No Subject)` defaulting lives only in
`MailHeader.Parse`: a present `Subject` line stores the trimmed value
after the colon and stores `(No Subject)` exactly when that value is
blank, while a header block with no `Subject` line leaves the subject
field unchanged (empty, not `(No Subject)`); on both the text/plain and
the text/html fast paths of `ProcessDATA` the subject is stored as the
raw `Subject` header value, with no defaulting and no sanitization. -/
theorem claim_C7 :
    (∀ (pd : String → String) (h : MailHeaderM) (line : String),
       goToLower ((goSplit line ":").headD "") = "subject" →
       (mailHeaderStep pd h line).Subject =
         (if goTrim (goJoin "" ((goSplit line ":").drop 1)) = "" then "(No Subject)"
          else goTrim (goJoin "" ((goSplit line ":").drop 1)))) ∧
    (∀ (pd : String → String) (h0 : MailHeaderM) (contents : String) (out : MailHeaderM),
       mailHeaderParse pd h0 contents = .ok out →
       (∀ l ∈ goSplit (UnfoldHeaders ((goSplit contents "\r\n\r\n").headD "")) "\r\n",
         goToLower ((goSplit l ":").headD "") ≠ "subject") →
       out.Subject = h0.Subject) ∧
    (∀ (P : Ports) (si block : String) (m : MailItemM) (hdrs : List (String × String)),
       readMIMEHeader block = .ok hdrs →
       goContains (goToLower si) "data" = true →
       goContains (headerGet hdrs "Content-Type") "text/plain" = true →
       (processDATA P si block m).2.1.Subject = headerGet hdrs "Subject") ∧
    (∀ (P : Ports) (si block : String) (m : MailItemM) (hdrs : List (String × String)),
       readMIMEHeader block = .ok hdrs →
       goContains (goToLower si) "data" = true →
       goContains (headerGet hdrs "Content-Type") "text/plain" = false →
       goContains (headerGet hdrs "Content-Type") "text/html" = true →
       (processDATA P si block m).2.1.Subject = headerGet hdrs "Subject") := by
  refine ⟨?_, ?_, ?_, ?_⟩
  · intro pd h line hk
    unfold mailHeaderStep
    rw [if_neg (by rw [hk]; decide), if_neg (by rw [hk]; decide), if_neg (by rw [hk]; decide),
      if_pos hk]
  · intro pd h0 contents out hparse hall
    unfold mailHeaderParse at hparse
    by_cases hlen : (goSplit contents "\r\n\r\n").length < 2
    · rw [if_pos hlen] at hparse
      exact Except.noConfusion hparse
    · rw [if_neg hlen] at hparse
      have hout : out = (goSplit (UnfoldHeaders ((goSplit contents "\r\n\r\n").headD "")) "\r\n").foldl
          (mailHeaderStep pd) { h0 with XMailer := "MailSlurper!", Boundary := "" } := by
        cases hparse
        rfl
      rw [hout]
      rw [mailHeaderFold_subject_of_ne pd _ _ hall]
  · intro P si block m hdrs hrm hd hplain
    unfold processDATA
    rw [if_neg (by simp [hd]), hrm]
    simp only
    rw [if_pos hplain]
    rfl
  · intro P si block m hdrs hrm hd hplain hhtml
    unfold processDATA
    rw [if_neg (by simp [hd]), hrm]
    simp only
    rw [if_neg (by simp [hplain]), if_pos hhtml]
    rfl

/-- C7 witness: the amended theorem evaluated — a present subject is
stored trimmed (`Hello`), a blank one becomes `(No Subject)` in
`MailHeader.Parse`, a subject-free header block parses with an empty
subject, and the text/plain fast path stores the raw header value. -/
theorem claim_C7_witness :
    (mailHeaderStep (fun s => s) {} "Subject: Hello").Subject = "Hello" ∧
    (mailHeaderStep (fun s => s) {} "Subject:   ").Subject = "(No Subject)" ∧
    (∀ out, mailHeaderParse (fun s => s) {} "X-A: 1\r\n\r\nbody" = .ok out →
      out.Subject = "") ∧
    (processDATA demoPorts "DATA" "Content-Type: text/plain\r\n\r\nhello" {}).2.1.Subject =
      headerGet [("Content-Type", "text/plain")] "Subject" := by
  refine ⟨?_, ?_, ?_, ?_⟩
  · rw [claim_C7.1 (fun s => s) {} "Subject: Hello" (by decide)]
    rfl
  · rw [claim_C7.1 (fun s => s) {} "Subject:   " (by decide)]
    rfl
  · intro out hp
    exact claim_C7.2.1 (fun s => s) {} "X-A: 1\r\n\r\nbody" out hp (by decide)
  · exact claim_C7.2.2.1 demoPorts "DATA" "Content-Type: text/plain\r\n\r\nhello" {}
      [("Content-Type", "text/plain")] rfl rfl rfl

/-!
## Claim C8 — children iff multipart
-/

/-- `SMTPMessagePart.ContentIsMultipart`: whether the parsed media type
of the part's `Content-Type` begins with `multipart/`. -/
def ContentIsMultipart (p : MessagePartM) : Except String Bool :=
  match parseMediaType p.getContentType with
  | .error e => .error e
  | .ok mtp => .ok (goStartsWith mtp.1 "multipart/")

/-- A multipart block whose body contains no boundary delimiter lines:
the multipart reader yields zero parts and `io.EOF`, which
`ParseMessages` treats as success. -/
def demoNoDelimBlock : String :=
  "Content-Type: multipart/mixed; boundary=\"abcd\"\r\nMIME-Version: 1.0\r\n\r\nno delimiter lines here"

/-- The simple text mail from the repository's message-part tests. -/
def demoPlainBlock : String :=
  "Content-Type: text/plain\r\nMIME-Version: 1.0\r\n\r\nThis is a simple text email"

/-- C8 counterexample: `BuildMessages` succeeds on a `multipart/mixed`
part whose body contains no boundary delimiters, producing an empty
children sequence even though the part's Content-Type begins with
`multipart/` — refuting the "non-empty iff multipart/" equivalence. -/
theorem claim_C8_counterexample :
    (BuildMessages demoNoDelimBlock).map (fun p => p.parts.length) = .ok 0 ∧
    (BuildMessages demoNoDelimBlock).map
      (fun p => match ContentIsMultipart p with
        | .ok b => b
        | .error _ => false) = .ok true := by
  constructor
  · rfl
  · rfl

/-- C8 (amended): for the root `MessagePart` produced by a successful
`BuildMessages`, the children sequence is non-empty only if the part's
Content-Type begins with `multipart/` (a multipart part may still have
zero children when its body contains no boundary delimiter); a part
whose media type does not begin with `multipart/` is a leaf with no
children that keeps the entire raw input (headers included) as its
body. -/
theorem claim_C8 (body : String) (p : MessagePartM)
    (hok : BuildMessages body = .ok p) :
    (p.parts ≠ [] → ContentIsMultipart p = .ok true) ∧
    (ContentIsMultipart p = .ok false → p.parts = [] ∧ p.body = body) := by
  unfold BuildMessages at hok
  simp only at hok
  cases hhs : headerSetParse ((goSplit body "\r\n\r\n").headD "") with
  | error e =>
    rw [hhs] at hok
    exact Except.noConfusion hok
  | ok hs =>
    rw [hhs] at hok
    simp only at hok
    cases hmt : parseMediaType (headerGet hs "Content-Type") with
    | error e =>
      rw [hmt] at hok
      exact Except.noConfusion hok
    | ok mtp =>
      rw [hmt] at hok
      simp only at hok
      by_cases hsw : goStartsWith mtp.1 "multipart/" = true
      · rw [if_pos hsw] at hok
        cases hpm : parseMessagesF (body.length + 1) body (paramsGet mtp.2 "boundary") with
        | error e =>
          rw [hpm] at hok
          exact Except.noConfusion hok
        | ok children =>
          rw [hpm] at hok
          simp only at hok
          cases hok
          have hcim : ContentIsMultipart (.mk hs body children) = .ok true := by
            unfold ContentIsMultipart
            have : (MessagePartM.mk hs body children).getContentType =
                headerGet hs "Content-Type" := rfl
            rw [this, hmt]
            simp [hsw]
          constructor
          · intro _
            exact hcim
          · intro hfalse
            rw [hcim] at hfalse
            simp at hfalse
      · rw [if_neg hsw] at hok
        cases hok
        constructor
        · intro hne
          exact absurd rfl hne
        · intro _
          exact ⟨rfl, rfl⟩

/-- C8 witness: the amended theorem evaluated on the repository's simple
text mail — a `text/plain` root is a leaf keeping the whole raw input as
its body. -/
theorem claim_C8_witness :
    BuildMessages demoPlainBlock =
      .ok (.mk [("Content-Type", "text/plain"), ("MIME-Version", "1.0")] demoPlainBlock []) ∧
    (MessagePartM.mk [("Content-Type", "text/plain"), ("MIME-Version", "1.0")]
      demoPlainBlock []).parts = [] ∧
    (MessagePartM.mk [("Content-Type", "text/plain"), ("MIME-Version", "1.0")]
      demoPlainBlock []).body = demoPlainBlock := by
  have h := claim_C8 demoPlainBlock
    (.mk [("Content-Type", "text/plain"), ("MIME-Version", "1.0")] demoPlainBlock []) (by rfl)
  have h2 := h.2 (by rfl)
  exact ⟨by rfl, h2.1, h2.2⟩

end Mailslurper
